import Mathlib

/-
Verification of the Prologot binding layer (SWI-Prolog <-> Godot marshalling
and query-execution protocol), shallowly embedded from src/src/Prologot.cpp.

The host value model (Godot Variant) and the engine term model (SWI-Prolog
term references) are external collaborators; they are embedded as the
inductive types `GVariant` and `PTerm` below, restricted to the kinds the
binding handles.  The SWI-Prolog C API calls (PL_chars_to_term,
PL_open_query, PL_next_solution, PL_close_query, ...) are modelled by an
`Engine` record of oracles plus an explicit event trace, so that resource
and error discipline can be stated about every code path.
-/

namespace Prologot

/-- The dynamically-typed host value (Godot `Variant`), restricted to the
kinds the binding inspects: NIL, BOOL, INT (64-bit), FLOAT (double),
STRING, ARRAY, DICTIONARY, and a stand-in `other` for every remaining
Variant kind (which the source routes through its `default:` branch).
The double payload is never computed with, only carried, so it is
modelled by an opaque rational carrier. -/
inductive GVariant where
  | nil
  | bool (b : Bool)
  | int (i : Int)
  | float (q : Rat)
  | str (s : String)
  | arr (l : List GVariant)
  | dict (d : List (String × GVariant))
  | other
deriving Repr

/-- An SWI-Prolog term, as observable through the C API used by the source:
unbound variable, atom, integer, float, string, the empty-list constant
(PL_NIL, which in SWI-Prolog 7 default mode is distinct from the ordinary
atom written "[]"), a list cell (PL_LIST_PAIR), and a compound term
(PL_TERM).  Prolog integers are unbounded (GMP); the binding reads them
with PL_get_int64, which fails outside the int64 range. -/
inductive PTerm where
  | var
  | atom (s : String)
  | int (i : Int)
  | float (q : Rat)
  | str (s : String)
  | nil
  | cons (h t : PTerm)
  | compound (f : String) (args : List PTerm)
deriving Repr

/-- Godot `Dictionary::has`: whether a key is present. -/
def dictHas (d : List (String × GVariant)) (k : String) : Bool :=
  d.any (fun p => p.1 == k)

/-- Godot `Dictionary::operator[]` read: value of the first matching key. -/
def dictGet (d : List (String × GVariant)) (k : String) : Option GVariant :=
  (d.find? (fun p => p.1 == k)).map (fun p => p.2)

/-- Dictionary read with a default for a missing key. -/
def dictGetD (d : List (String × GVariant)) (k : String) (v : GVariant) : GVariant :=
  (dictGet d k).getD v

/-- Godot `Dictionary::operator[]` write: replace the value of an existing
key, otherwise append the pair. -/
def dictSet (d : List (String × GVariant)) (k : String) (v : GVariant) :
    List (String × GVariant) :=
  if dictHas d k then d.map (fun p => if p.1 == k then (k, v) else p)
  else d ++ [(k, v)]

/-- Godot `Variant` to `String` conversion (`String(arg)` in the source).
For a STRING variant this is the string itself; the renderings of the
other kinds are host-collaborator behaviour that no modelled code path
inspects, so they are carried as fixed placeholder texts. -/
def toGDString : GVariant → String
  | .nil => "<null>"
  | .bool b => if b then "true" else "false"
  | .int i => toString i
  | .float _ => "<float>"
  | .str s => s
  | .arr _ => "<array>"
  | .dict _ => "<dictionary>"
  | .other => "<other>"

/-- Godot `Variant` to `Array` conversion (`Array args_arr = dict["args"]`):
an ARRAY variant yields its elements, any other kind an empty array. -/
def toGDArray : GVariant → List GVariant
  | .arr l => l
  | _ => []

/-- PL_cons_functor_v: building a compound term from a functor name and
argument vector.  In SWI-Prolog 7 the list constructor is the functor
written "[|]" with arity 2, and consing it yields a list cell
(PL_LIST_PAIR); every other name/arity - including arity 0 - yields a
compound term (PL_TERM). -/
def mkCompound : String → List PTerm → PTerm
  | "[|]", [a, b] => .cons a b
  | f, args => .compound f args

mutual

/-- Prologot::variant_to_term (Prologot.cpp:1214-1366). NIL becomes the
atom "[]"; BOOL one of the atoms "true"/"false"; INT an engine integer;
FLOAT an engine float; STRING an atom (deliberately not an engine
string); ARRAY a proper list built back-to-front; a DICTIONARY carrying
both a "functor" and an "args" key a compound term; any other DICTIONARY
and every remaining kind the atom "[]".  The source's
`return (term_t)0` failure exits fire only when an engine allocation
fails, which the term model cannot exhibit, so the embedding is total. -/
def variant_to_term : GVariant → PTerm
  | .nil => .atom "[]"
  | .bool b => .atom (if b then "true" else "false")
  | .int i => .int i
  | .float q => .float q
  | .str s => .atom s
  | .arr l => if l.isEmpty then .nil else list_to_term l
  | .dict d =>
      if dictHas d "functor" && dictHas d "args" then
        mkCompound (toGDString (dictGetD d "functor" .nil)) (dict_args_terms d)
      else .atom "[]"
  | .other => .atom "[]"

/-- The backwards loop of the ARRAY case: start from the empty list and
cons the converted elements from the last index down to 0; equivalently,
a right fold of list cells over the converted elements. -/
def list_to_term : List GVariant → PTerm
  | [] => .nil
  | x :: xs => .cons (variant_to_term x) (list_to_term xs)

/-- The DICTIONARY case reads `dict["args"]`, coerces it to an Array and
converts each element; this walks to the first "args" entry and maps the
conversion over its elements (an empty argument vector results when the
value is not an ARRAY, matching the Godot coercion). -/
def dict_args_terms : List (String × GVariant) → List PTerm
  | [] => []
  | (k, v) :: tl =>
      if k == "args" then
        match v with
        | .arr l => args_list_terms l
        | _ => []
      else dict_args_terms tl

/-- Conversion of each element of the "args" array. -/
def args_list_terms : List GVariant → List PTerm
  | [] => []
  | x :: xs => variant_to_term x :: args_list_terms xs

end

mutual

/-- Prologot::term_to_variant (Prologot.cpp:1072-1212), dispatching on
PL_term_type.  PL_VARIABLE becomes NIL; PL_ATOM the atom text as a
String; PL_INTEGER an int64 when PL_get_int64 succeeds (NIL otherwise,
for integers outside the int64 range); PL_FLOAT a float; PL_STRING a
String; PL_NIL an empty Array; PL_LIST_PAIR an Array of the converted
elements collected by the PL_get_list loop; PL_TERM first the empty-list
atom check (a zero-arity compound named "[]" becomes an empty Array) and
otherwise the Dictionary {"functor": name, "args": [...]}.  The source's
PL_get_list attempt on the PL_TERM branch can never succeed there (a
list cell always reports PL_LIST_PAIR). -/
def term_to_variant : PTerm → GVariant
  | .var => .nil
  | .atom s => .str s
  | .int i => if -(2 ^ 63) ≤ i ∧ i < 2 ^ 63 then .int i else .nil
  | .float q => .float q
  | .str s => .str s
  | .nil => .arr []
  | .cons h t => .arr (term_to_variant h :: plist_elems t)
  | .compound f args =>
      if args.isEmpty && f == "[]" then .arr []
      else .dict [("functor", .str f), ("args", .arr (terms_to_variants args))]

/-- The `while (PL_get_list(tail, head, tail))` loop: collect converted
heads until the tail is no longer a list cell (an improper tail is
silently dropped). -/
def plist_elems : PTerm → List GVariant
  | .cons h t => term_to_variant h :: plist_elems t
  | _ => []

/-- The argument loop of the PL_TERM branch: convert each argument. -/
def terms_to_variants : List PTerm → List GVariant
  | [] => []
  | t :: ts => term_to_variant t :: terms_to_variants ts

end

/-- The raw term list of a Prolog list as walked by PL_get_list. -/
def plist_terms : PTerm → List PTerm
  | .cons h t => h :: plist_terms t
  | _ => []

/-- PL_get_arg (1-based) on a compound term or list cell. -/
def get_arg : Nat → PTerm → Option PTerm
  | n, .compound _ args => if n = 0 then none else args[n - 1]?
  | 1, .cons h _ => some h
  | 2, .cons _ t => some t
  | _, _ => none

/-- PL_get_name_arity: name and arity of a compound term, a list cell
(functor "[|]"/2) or an atom (arity 0); fails on every other kind. -/
def name_arity : PTerm → Option (String × Nat)
  | .atom s => some (s, 0)
  | .compound f args => some (f, args.length)
  | .cons _ _ => some ("[|]", 2)
  | _ => none

/-- The mutable members of the `Prologot` object that the modelled paths
touch: `m_initialized`, `m_last_error`, `m_on_error`, `m_on_warning`. -/
structure PState where
  initialized : Bool
  lastError : String
  onError : String
  onWarning : String

/-- The verdict of PL_next_solution on a freshly opened query (with
PL_Q_CATCH_EXCEPTION): a solution was found (the goal term now carries
its bindings, modelled as the instantiated goal), no solution exists, or
an exception was signalled (`msg` is the text PL_get_chars renders from
the exception term, `none` when no renderable exception is available). -/
inductive Outcome where
  | solved (bound : PTerm)
  | notSolved
  | exception (msg : Option String)

/-- The SWI-Prolog engine as the collaborator the binding drives:
`parse` is PL_chars_to_term, `runCall` opens a query on call/1 with a
goal term and takes its first solution, `runPred` does the same on a
named built-in predicate (assert, retract, consult,
load_program_from_string), `findPred` is the PL_predicate existence
lookup, `globalize` the Godot path virtualisation, and the last three
summarise PL_initialise and the bootstrap clause loading. -/
structure Engine where
  parse : String → Option PTerm
  runCall : PTerm → Outcome
  runPred : String → PTerm → Outcome
  findPred : String → Nat → Bool
  globalize : String → String
  initOk : Bool
  initException : Option String
  bootstrapError : Option String

/-- Engine-side actions a public operation performs, recorded in order:
a PL_chars_to_term parse, PL_open_query, PL_next_solution,
PL_close_query, PL_initialise and PL_cleanup. -/
inductive Event where
  | parseEv (text : String)
  | openQ
  | nextSol
  | closeQ
  | plInitEv
  | plCleanupEv

/-- Prologot::push_error (Prologot.cpp:1372-1391): store the message in
`m_last_error`; the "print"/"halt" options additionally log the message
(an I/O effect outside the state), "status" stores silently.  No branch
changes any state besides the error slot. -/
def push_error (st : PState) (message : String) (_ptype : String) : PState :=
  { st with lastError := message }

/-- Prologot::handle_prolog_exception (Prologot.cpp:1393-1409): when the
query has a pending exception whose text can be rendered, push the
"<context> error: <text>" message; otherwise leave the state alone. -/
def handle_prolog_exception (st : PState) (context : String) (msg : Option String) :
    PState :=
  match msg with
  | some m => push_error st (context ++ " error: " ++ m) "error"
  | none => st

/-- Prologot::get_last_error (Prologot.cpp:1420-1423). -/
def get_last_error (st : PState) : String :=
  st.lastError

/-- Prologot::is_initialized (Prologot.cpp:392-395). -/
def is_initialized (st : PState) : Bool :=
  st.initialized

/-- The trailing-period removal performed by build_query, add_fact,
retract_fact and retract_all: drop the last character when it is a
period, once. -/
def stripTrailingPeriod (s : String) : String :=
  if s.data.getLast? = some '.' then String.mk s.data.dropLast else s

/-- Prologot::build_query (Prologot.cpp:507-555): strip one trailing
period from the predicate; with no arguments the predicate is already
the whole goal; otherwise render "predicate(a1, a2, ..., an)" where a
STRING argument is emitted verbatim (the source's variable-name test
picks between two identical branches) and any other argument by the
Godot textual rendering. -/
def build_query (predicate : String) (args : List GVariant) : String :=
  let p := stripTrailingPeriod predicate
  if args.isEmpty then p
  else
    p ++ "(" ++ String.intercalate ", " (args.map fun a =>
      match a with
      | .str s => s
      | a => toGDString a) ++ ")"

/-- Prologot::query (Prologot.cpp:557-601): refuse when not initialized;
build the goal text; refuse an empty goal; parse it; run it through
call/1 under PL_Q_CATCH_EXCEPTION; close the query on every path and
report whether a solution was found. -/
def query (e : Engine) (st : PState) (predicate : String) (args : List GVariant) :
    Bool × PState × List Event :=
  if !st.initialized then (false, st, [])
  else
    let goal := build_query predicate args
    if goal = "" then (false, { st with lastError := "Empty query" }, [])
    else
      match e.parse goal with
      | none =>
          (false, { st with lastError := "Failed to parse query: " ++ goal },
           [.parseEv goal])
      | some t =>
          match e.runCall t with
          | .exception m =>
              (false, handle_prolog_exception st "Query" m,
               [.parseEv goal, .openQ, .nextSol, .closeQ])
          | .notSolved => (false, st, [.parseEv goal, .openQ, .nextSol, .closeQ])
          | .solved _ => (true, st, [.parseEv goal, .openQ, .nextSol, .closeQ])

/-- The eligibility loop shared verbatim by query_all (Prologot.cpp:
645-663) and query_one (Prologot.cpp:738-754): scanning the argument
list, extraction stays enabled only while every element is a STRING
whose first character is an uppercase ASCII letter or an underscore. -/
def extract_vars_loop : List GVariant → Bool
  | [] => true
  | a :: rest =>
      match a with
      | .str s =>
          match s.data.head? with
          | none => false
          | some c => if ('A' ≤ c ∧ c ≤ 'Z') ∨ c = '_' then extract_vars_loop rest
                      else false
      | _ => false

/-- The extraction decision: a non-empty argument list all of whose
elements pass the variable-name test. -/
def extract_vars_flag (args : List GVariant) : Bool :=
  !args.isEmpty && extract_vars_loop args

/-- Prologot::extract_variables (Prologot.cpp:603-626): on a solved goal
term, map the i-th requested name to the converted (i+1)-th argument of
the term, for i below both the request count and the arity. -/
def extract_variables (t : PTerm) (vars : List GVariant) :
    List (String × GVariant) :=
  match name_arity t with
  | none => []
  | some (_, arity) =>
      (List.range (min vars.length arity)).foldl
        (fun acc i =>
          match vars[i]? with
          | none => acc
          | some v =>
              match get_arg (i + 1) t with
              | none => acc
              | some arg => dictSet acc (toGDString v) (term_to_variant arg))
        []

/-- Prologot::query_all (Prologot.cpp:628-720): wrap the goal in
findall/3 so one solution materialises the whole result list; on
success, walk argument 3 of the instantiated findall term cell by cell,
converting each solution either to a named-variable Dictionary or to a
whole converted value; return an empty Array on no solution, a parse
failure or an exception. -/
def query_all (e : Engine) (st : PState) (predicate : String) (args : List GVariant) :
    List GVariant × PState × List Event :=
  if !st.initialized then ([], st, [])
  else
    let goal := build_query predicate args
    if goal = "" then ([], { st with lastError := "Empty query" }, [])
    else
      let findallGoal := "findall(" ++ goal ++ ", " ++ goal ++ ", PrologotResults__)"
      match e.parse findallGoal with
      | none =>
          ([], { st with lastError := "Failed to parse query: " ++ goal },
           [.parseEv findallGoal])
      | some t =>
          match e.runCall t with
          | .exception m =>
              ([], handle_prolog_exception st "Query all" m,
               [.parseEv findallGoal, .openQ, .nextSol, .closeQ])
          | .notSolved => ([], st, [.parseEv findallGoal, .openQ, .nextSol, .closeQ])
          | .solved bound =>
              let results :=
                match get_arg 3 bound with
                | none => []
                | some lst =>
                    (plist_terms lst).map fun h =>
                      if extract_vars_flag args then
                        GVariant.dict (extract_variables h args)
                      else term_to_variant h
              (results, st, [.parseEv findallGoal, .openQ, .nextSol, .closeQ])

/-- Prologot::query_one (Prologot.cpp:722-794): take the first solution
only; on success return either the named-variable Dictionary or the
whole converted goal term; return NIL on no solution, a parse failure or
an exception. -/
def query_one (e : Engine) (st : PState) (predicate : String) (args : List GVariant) :
    GVariant × PState × List Event :=
  if !st.initialized then (.nil, st, [])
  else
    let goal := build_query predicate args
    if goal = "" then (.nil, { st with lastError := "Empty query" }, [])
    else
      match e.parse goal with
      | none =>
          (.nil, { st with lastError := "Failed to parse query: " ++ goal },
           [.parseEv goal])
      | some t =>
          match e.runCall t with
          | .exception m =>
              (.nil, handle_prolog_exception st "Query one" m,
               [.parseEv goal, .openQ, .nextSol, .closeQ])
          | .notSolved => (.nil, st, [.parseEv goal, .openQ, .nextSol, .closeQ])
          | .solved bound =>
              ((if extract_vars_flag args then
                  GVariant.dict (extract_variables bound args)
                else term_to_variant bound),
               st, [.parseEv goal, .openQ, .nextSol, .closeQ])

/-- Prologot::add_fact (Prologot.cpp:800-845): reject a blank fact, strip
one trailing period, parse, and run assert/1 on the term. -/
def add_fact (e : Engine) (st : PState) (fact : String) :
    Bool × PState × List Event :=
  if !st.initialized then (false, st, [])
  else if fact = "" then (false, { st with lastError := "Empty fact" }, [])
  else
    let f := stripTrailingPeriod fact
    match e.parse f with
    | none =>
        (false, { st with lastError := "Failed to parse fact: " ++ f }, [.parseEv f])
    | some t =>
        match e.runPred "assert" t with
        | .exception m =>
            (false, handle_prolog_exception st "Assert fact" m,
             [.parseEv f, .openQ, .nextSol, .closeQ])
        | .notSolved => (false, st, [.parseEv f, .openQ, .nextSol, .closeQ])
        | .solved _ => (true, st, [.parseEv f, .openQ, .nextSol, .closeQ])

/-- Prologot::retract_fact (Prologot.cpp:847-892): as add_fact, with
retract/1. -/
def retract_fact (e : Engine) (st : PState) (fact : String) :
    Bool × PState × List Event :=
  if !st.initialized then (false, st, [])
  else if fact = "" then (false, { st with lastError := "Empty fact" }, [])
  else
    let f := stripTrailingPeriod fact
    match e.parse f with
    | none =>
        (false, { st with lastError := "Failed to parse fact: " ++ f }, [.parseEv f])
    | some t =>
        match e.runPred "retract" t with
        | .exception m =>
            (false, handle_prolog_exception st "Retract fact" m,
             [.parseEv f, .openQ, .nextSol, .closeQ])
        | .notSolved => (false, st, [.parseEv f, .openQ, .nextSol, .closeQ])
        | .solved _ => (true, st, [.parseEv f, .openQ, .nextSol, .closeQ])

/-- Prologot::retract_all (Prologot.cpp:894-910): strip one trailing
period from the pattern (there is no blank-input check here), wrap it as
"retractall(pattern)" and delegate to query. -/
def retract_all (e : Engine) (st : PState) (functor : String) :
    Bool × PState × List Event :=
  if !st.initialized then (false, st, [])
  else
    query e st ("retractall(" ++ stripTrailingPeriod functor ++ ")") []

/-- Prologot::consult_file (Prologot.cpp:401-454): reject a blank
filename, globalize res:// and user:// paths, and run consult/1 on the
filename atom (no text is parsed as a term here). -/
def consult_file (e : Engine) (st : PState) (filename : String) :
    Bool × PState × List Event :=
  if !st.initialized then (false, st, [])
  else if filename = "" then (false, { st with lastError := "Empty filename" }, [])
  else
    let fn :=
      if filename.startsWith "res://" || filename.startsWith "user://" then
        e.globalize filename
      else filename
    match e.runPred "consult" (.atom fn) with
    | .exception m =>
        (false, handle_prolog_exception st "Consult" m, [.openQ, .nextSol, .closeQ])
    | .notSolved => (false, st, [.openQ, .nextSol, .closeQ])
    | .solved _ => (true, st, [.openQ, .nextSol, .closeQ])

/-- Prologot::consult_string (Prologot.cpp:456-501): reject blank code,
store it as an engine string and run the bootstrap predicate
load_program_from_string/1 on it. -/
def consult_string (e : Engine) (st : PState) (code : String) :
    Bool × PState × List Event :=
  if !st.initialized then (false, st, [])
  else if code = "" then (false, { st with lastError := "Empty Prolog code" }, [])
  else
    match e.runPred "load_program_from_string" (.str code) with
    | .exception m =>
        (false, handle_prolog_exception st "Consult string" m,
         [.openQ, .nextSol, .closeQ])
    | .notSolved => (false, st, [.openQ, .nextSol, .closeQ])
    | .solved _ => (true, st, [.openQ, .nextSol, .closeQ])

/-- Prologot::call_predicate (Prologot.cpp:916-973): reject a blank name,
convert every argument, cons the goal compound and run it via call/1. -/
def call_predicate (e : Engine) (st : PState) (predicate : String)
    (args : List GVariant) : Bool × PState × List Event :=
  if !st.initialized then (false, st, [])
  else if predicate = "" then
    (false, { st with lastError := "Empty predicate name" }, [])
  else
    match e.runCall (mkCompound predicate (args.map variant_to_term)) with
    | .exception m =>
        (false, handle_prolog_exception st "Call predicate" m,
         [.openQ, .nextSol, .closeQ])
    | .notSolved => (false, st, [.openQ, .nextSol, .closeQ])
    | .solved _ => (true, st, [.openQ, .nextSol, .closeQ])

/-- Prologot::call_function (Prologot.cpp:975-1035): as call_predicate,
with one extra unbound argument slot which the engine binds to the
result; on success that slot (the last argument of the instantiated
goal) is converted back.  When the oracle's instantiated goal is shaped
so the slot cannot be read, an unbound slot is used. -/
def call_function (e : Engine) (st : PState) (predicate : String)
    (args : List GVariant) : GVariant × PState × List Event :=
  if !st.initialized then (.nil, st, [])
  else if predicate = "" then
    (.nil, { st with lastError := "Empty predicate name" }, [])
  else
    match e.runCall (mkCompound predicate (args.map variant_to_term ++ [.var])) with
    | .exception m =>
        (.nil, handle_prolog_exception st "Call function" m,
         [.openQ, .nextSol, .closeQ])
    | .notSolved => (.nil, st, [.openQ, .nextSol, .closeQ])
    | .solved bound =>
        (term_to_variant ((get_arg (args.length + 1) bound).getD .var),
         st, [.openQ, .nextSol, .closeQ])

/-- Prologot::predicate_exists (Prologot.cpp:1041-1052): PL_predicate
lookup; no query is opened. -/
def predicate_exists (e : Engine) (st : PState) (predicate : String) (arity : Nat) :
    Bool × PState × List Event :=
  if !st.initialized then (false, st, [])
  else (e.findPred predicate arity, st, [])

/-- Prologot::list_predicates (Prologot.cpp:1054-1066): delegate to
query_all on "current_predicate(Name/Arity)". -/
def list_predicates (e : Engine) (st : PState) :
    List GVariant × PState × List Event :=
  if !st.initialized then ([], st, [])
  else query_all e st "current_predicate(Name/Arity)" []

/-- Prologot::initialize (Prologot.cpp:116-379), modelled as `startup`
(the source name collides with a reserved word here).  When already
initialized it is an immediate no-op success.  Otherwise it stores the
"on error"/"on warning" options, assembles the engine argv (collaborator
glue, not re-specified), calls PL_initialise, loads the bootstrap
predicates (a parse-and-assert loop over five fixed clause texts,
summarised by the `bootstrapError` oracle which carries the loop's
failure message), and only after every step succeeds sets the
initialized flag. -/
def startup (e : Engine) (st : PState) (opts : List (String × GVariant)) :
    Bool × PState × List Event :=
  if st.initialized then (true, st, [])
  else
    let st1 := { st with
      onError := toGDString (dictGetD opts "on error" (.str "print")),
      onWarning := toGDString (dictGetD opts "on warning" (.str "print")) }
    if !e.initOk then
      match e.initException with
      | some m =>
          (false, push_error st1 ("PL_initialise error: " ++ m) "error", [.plInitEv])
      | none =>
          (false, { st1 with lastError := "PL_initialise() failed (no details available)" },
           [.plInitEv])
    else
      match e.bootstrapError with
      | some m =>
          (false, { st1 with lastError := m },
           [.plInitEv, .openQ, .nextSol, .closeQ, .plCleanupEv])
      | none =>
          (true, { st1 with initialized := true },
           [.plInitEv, .openQ, .nextSol, .closeQ])

/-- Prologot::cleanup (Prologot.cpp:381-390): shut the engine down only
when it is initialized, and clear the flag; otherwise do nothing. -/
def cleanup (st : PState) : PState × List Event :=
  if st.initialized then ({ st with initialized := false }, [.plCleanupEv])
  else (st, [])

/-- The element conversion of the "args" array is a map. -/
theorem args_list_terms_eq (l : List GVariant) :
    args_list_terms l = l.map variant_to_term := by
  induction l with
  | nil => rfl
  | cons x xs ih => simp [args_list_terms, ih]

/-- The argument conversion of the PL_TERM branch is a map. -/
theorem terms_to_variants_eq (l : List PTerm) :
    terms_to_variants l = l.map term_to_variant := by
  induction l with
  | nil => rfl
  | cons t ts ih => simp [terms_to_variants, ih]

/-- The ARRAY case of variant_to_term always produces the fold, whether
or not the array is empty. -/
theorem variant_to_term_arr (l : List GVariant) :
    variant_to_term (.arr l) = list_to_term l := by
  cases l <;> rfl

/-- The backwards cons loop equals a right fold of list cells over the
converted elements. -/
theorem list_to_term_eq_foldr (l : List GVariant) :
    list_to_term l = (l.map variant_to_term).foldr PTerm.cons .nil := by
  induction l with
  | nil => rfl
  | cons x xs ih => simp [list_to_term, ih]

/-- Reading back the DICTIONARY "args" entry: the conversion loop equals
mapping the conversion over the Godot Array coercion of the entry. -/
theorem dict_args_terms_eq (d : List (String × GVariant)) :
    dict_args_terms d = (toGDArray (dictGetD d "args" .nil)).map variant_to_term := by
  induction d with
  | nil => rfl
  | cons p tl ih =>
    obtain ⟨k, v⟩ := p
    by_cases hk : k = "args"
    · subst hk
      cases v <;>
        simp [dict_args_terms, dictGetD, dictGet, List.find?, toGDArray,
          args_list_terms_eq]
    · have hb : (k == "args") = false := by simpa using hk
      have h1 : dict_args_terms ((k, v) :: tl) = dict_args_terms tl := by
        cases v <;> simp [dict_args_terms, hb]
      have h2 : dictGetD ((k, v) :: tl) "args" .nil = dictGetD tl "args" .nil := by
        simp [dictGetD, dictGet, List.find?_cons, hb]
      rw [h1, h2, ih]

/-- Converting a built list term back: the PL_get_list loop recovers the
per-element round trips. -/
theorem plist_elems_list_to_term (l : List GVariant) :
    plist_elems (list_to_term l) =
      l.map (fun x => term_to_variant (variant_to_term x)) := by
  induction l with
  | nil => rfl
  | cons x xs ih => simp [list_to_term, plist_elems, ih]

/-- A built list term converts back to the Array of the loop's elements. -/
theorem t2v_list_to_term (l : List GVariant) :
    term_to_variant (list_to_term l) = .arr (plist_elems (list_to_term l)) := by
  cases l <;> rfl

/-- The value kinds that survive the round trip: Int64 (the int64 range
Godot's INT guarantees), Float64, String, and OrderedSequences of such. -/
inductive RT : GVariant → Prop where
  | int : ∀ i : Int, -(2 ^ 63) ≤ i → i < 2 ^ 63 → RT (.int i)
  | float : ∀ q, RT (.float q)
  | str : ∀ s, RT (.str s)
  | arr : ∀ l, (∀ x ∈ l, RT x) → RT (.arr l)

/-- C1, counterexample: the round trip does not hold for the Bool and
Null kinds the claim lists.  Bool true becomes the atom "true" and comes
back as the String "true"; Null becomes the atom "[]" and comes back as
the String "[]". -/
theorem round_trip_refuted :
    term_to_variant (variant_to_term (GVariant.bool true)) ≠ GVariant.bool true ∧
    term_to_variant (variant_to_term GVariant.nil) ≠ GVariant.nil := by
  constructor
  · intro h; exact nomatch h
  · intro h; exact nomatch h

/-- C1 (amended): for every DynamicValue of kind Int64, Float64, String,
or OrderedSequence of such kinds, converting to a Prolog term with
variant_to_term and back with term_to_variant yields the value again;
Null and Bool are excluded because they convert to atoms and return as
Strings. -/
theorem round_trip_value_term (v : GVariant) (h : RT v) :
    term_to_variant (variant_to_term v) = v := by
  induction h with
  | int i h1 h2 =>
      simp only [variant_to_term, term_to_variant]
      rw [if_pos ⟨h1, h2⟩]
  | float q => rfl
  | str s => rfl
  | arr l hmem ih =>
      rw [variant_to_term_arr, t2v_list_to_term, plist_elems_list_to_term]
      have : l.map (fun x => term_to_variant (variant_to_term x)) = l.map id :=
        List.map_congr_left ih
      rw [this, List.map_id]

/-- C1 witness: a concrete mixed sequence round-trips. -/
theorem round_trip_value_term_witness :
    term_to_variant (variant_to_term
        (.arr [.int 3, .str "ab", .float (1 / 2)])) =
      .arr [.int 3, .str "ab", .float (1 / 2)] := by
  refine round_trip_value_term _ (RT.arr _ ?_)
  intro x hx
  simp only [List.mem_cons, List.not_mem_nil, or_false] at hx
  rcases hx with h | h | h
  · subst h; exact RT.int 3 (by decide) (by decide)
  · subst h; exact RT.str _
  · subst h; exact RT.float _

/-- C2: variant_to_term maps Null to the atom "[]", Bool to the atoms
"true"/"false", Int64 to an engine integer, Float64 to an engine float,
String to an atom (not an engine string), an OrderedSequence to the
proper list obtained by consing the converted elements from last to
first onto the empty list, a Mapping with both "functor" and "args" keys
to the compound of that functor name over the converted argument list,
and any other Mapping or unrecognized kind to the atom "[]". -/
theorem term_from_value_spec (b : Bool) (i : Int) (q : Rat) (s : String)
    (l : List GVariant) (d : List (String × GVariant)) :
    variant_to_term .nil = .atom "[]" ∧
    variant_to_term (.bool b) = .atom (if b then "true" else "false") ∧
    variant_to_term (.int i) = .int i ∧
    variant_to_term (.float q) = .float q ∧
    variant_to_term (.str s) = .atom s ∧
    variant_to_term (.arr l) = (l.map variant_to_term).foldr PTerm.cons .nil ∧
    variant_to_term (.dict d) =
      (if dictHas d "functor" && dictHas d "args" then
        mkCompound (toGDString (dictGetD d "functor" .nil))
          ((toGDArray (dictGetD d "args" .nil)).map variant_to_term)
      else .atom "[]") ∧
    variant_to_term .other = .atom "[]" := by
  refine ⟨rfl, rfl, rfl, rfl, rfl, ?_, ?_, rfl⟩
  · rw [variant_to_term_arr, list_to_term_eq_foldr]
  · simp only [variant_to_term, dict_args_terms_eq]

/-- The spec-side shape of one extraction-eligible argument: a String
whose first character is an uppercase ASCII letter or an underscore. -/
def VarNameString (a : GVariant) : Prop :=
  ∃ s, a = GVariant.str s ∧
    ∃ c, s.data.head? = some c ∧ (('A' ≤ c ∧ c ≤ 'Z') ∨ c = '_')

/-- The spec-side eligibility condition shared by query_all and
query_one: a non-empty argument list whose every element passes the
variable-name test. -/
def GoodArgs (args : List GVariant) : Prop :=
  args ≠ [] ∧ ∀ a ∈ args, VarNameString a

/-- The source's scan loop agrees elementwise with the spec-side
condition. -/
theorem extract_vars_loop_iff (args : List GVariant) :
    extract_vars_loop args = true ↔ ∀ a ∈ args, VarNameString a := by
  induction args with
  | nil => simp [extract_vars_loop]
  | cons a rest ih =>
    rw [List.forall_mem_cons]
    cases a with
    | str s =>
      cases hc : s.data.head? with
      | none => simp [extract_vars_loop, hc, VarNameString]
      | some c =>
        by_cases hcond : ('A' ≤ c ∧ c ≤ 'Z') ∨ c = '_' <;>
          simp [extract_vars_loop, hc, hcond, ih, VarNameString]
    | nil => simp [extract_vars_loop, VarNameString]
    | bool b => simp [extract_vars_loop, VarNameString]
    | int i => simp [extract_vars_loop, VarNameString]
    | float q => simp [extract_vars_loop, VarNameString]
    | arr l => simp [extract_vars_loop, VarNameString]
    | dict d => simp [extract_vars_loop, VarNameString]
    | other => simp [extract_vars_loop, VarNameString]

/-- The extraction flag holds exactly on the spec-side condition. -/
theorem extract_vars_flag_iff (args : List GVariant) :
    extract_vars_flag args = true ↔ GoodArgs args := by
  simp [extract_vars_flag, GoodArgs, extract_vars_loop_iff, List.isEmpty_iff]

/-- C3: in query_one (and via the same flag in query_all),
named-variable extraction is used if and only if the argument list is
non-empty and every element is a String starting with an uppercase ASCII
letter or an underscore; any other shape falls back to whole-term
conversion. -/
theorem extraction_eligibility (e : Engine) (st : PState) (p : String)
    (args : List GVariant) (t bound t2 bound2 : PTerm)
    (hinit : st.initialized = true)
    (hgoal : build_query p args ≠ "")
    (hparse : e.parse (build_query p args) = some t)
    (hrun : e.runCall t = .solved bound)
    (hparse2 : e.parse ("findall(" ++ build_query p args ++ ", " ++
        build_query p args ++ ", PrologotResults__)") = some t2)
    (hrun2 : e.runCall t2 = .solved bound2) :
    (extract_vars_flag args = true ↔ GoodArgs args) ∧
    (query_one e st p args).1 =
      (if extract_vars_flag args then GVariant.dict (extract_variables bound args)
       else term_to_variant bound) ∧
    (query_all e st p args).1 =
      (plist_terms ((get_arg 3 bound2).getD .nil)).map (fun h =>
        if extract_vars_flag args then GVariant.dict (extract_variables h args)
        else term_to_variant h) := by
  refine ⟨extract_vars_flag_iff args, ?_, ?_⟩
  · simp [query_one, hinit, if_neg hgoal, hparse, hrun]
  · simp only [query_all, hinit, Bool.not_true, Bool.false_eq_true, if_false,
      if_neg hgoal, hparse2, hrun2]
    cases hga : get_arg 3 bound2 <;> simp [hga, plist_terms]

/-- A state whose engine is up and which carries a previously recorded
error text (used by witnesses). -/
def stReady : PState :=
  { initialized := true, lastError := "boot error",
    onError := "print", onWarning := "print" }

/-- A state whose engine has not been started (used by witnesses). -/
def stDown : PState :=
  { initialized := false, lastError := "",
    onError := "print", onWarning := "print" }

/-- A test engine whose parser echoes the text as an atom and whose
queries all succeed leaving the goal term as it was. -/
def eAtom : Engine :=
  { parse := fun s => some (.atom s), runCall := fun t => .solved t,
    runPred := fun _ t => .solved t, findPred := fun _ _ => true,
    globalize := id, initOk := true, initException := none,
    bootstrapError := none }

/-- A test engine whose parser rejects every text and whose queries all
fail without exception. -/
def eReject : Engine :=
  { parse := fun _ => none, runCall := fun _ => .notSolved,
    runPred := fun _ _ => .notSolved, findPred := fun _ _ => false,
    globalize := id, initOk := true, initException := none,
    bootstrapError := none }

/-- C3 witness: a concrete eligible query. -/
theorem extraction_eligibility_witness :
    (extract_vars_flag [GVariant.str "X", GVariant.str "Y"] = true ↔
        GoodArgs [GVariant.str "X", GVariant.str "Y"]) ∧
    (query_one eAtom stReady "parent" [.str "X", .str "Y"]).1 =
      (if extract_vars_flag [GVariant.str "X", GVariant.str "Y"] then
        GVariant.dict (extract_variables
          (.atom (build_query "parent" [.str "X", .str "Y"]))
          [.str "X", .str "Y"])
       else term_to_variant (.atom (build_query "parent" [.str "X", .str "Y"]))) ∧
    (query_all eAtom stReady "parent" [.str "X", .str "Y"]).1 =
      (plist_terms ((get_arg 3 (.atom ("findall(" ++
          build_query "parent" [.str "X", .str "Y"] ++ ", " ++
          build_query "parent" [.str "X", .str "Y"] ++
          ", PrologotResults__)"))).getD .nil)).map (fun h =>
        if extract_vars_flag [GVariant.str "X", GVariant.str "Y"] then
          GVariant.dict (extract_variables h [.str "X", .str "Y"])
        else term_to_variant h) :=
  extraction_eligibility eAtom stReady "parent" [.str "X", .str "Y"]
    _ _ _ _ rfl (by decide) rfl rfl rfl rfl

/-- Count of PL_open_query events in a trace. -/
def nOpen (tr : List Event) : Nat :=
  tr.countP fun ev => match ev with | .openQ => true | _ => false

/-- Count of PL_close_query events in a trace. -/
def nClose (tr : List Event) : Nat :=
  tr.countP fun ev => match ev with | .closeQ => true | _ => false

/-- A trace is query-scoped when it opens at most one query, closes
exactly as many queries as it opens, and, when it opened one, its last
action is the close. -/
def QueryScoped (tr : List Event) : Prop :=
  nOpen tr = nClose tr ∧ nOpen tr ≤ 1 ∧
    (nOpen tr = 0 ∨ tr.getLast? = some .closeQ)

theorem queryScoped_nil : QueryScoped [] :=
  ⟨rfl, Nat.zero_le 1, Or.inl rfl⟩

theorem queryScoped_parse (g : String) : QueryScoped [.parseEv g] :=
  ⟨rfl, Nat.zero_le 1, Or.inl rfl⟩

theorem queryScoped_full (g : String) :
    QueryScoped [.parseEv g, .openQ, .nextSol, .closeQ] :=
  ⟨rfl, Nat.le_refl 1, Or.inr rfl⟩

theorem queryScoped_noparse : QueryScoped [.openQ, .nextSol, .closeQ] :=
  ⟨rfl, Nat.le_refl 1, Or.inr rfl⟩

theorem query_scoped (e : Engine) (st : PState) (p : String) (args : List GVariant) :
    QueryScoped (query e st p args).2.2 := by
  simp only [query]
  repeat' split
  all_goals first
    | exact queryScoped_nil
    | exact queryScoped_parse _
    | exact queryScoped_full _

theorem query_all_scoped (e : Engine) (st : PState) (p : String)
    (args : List GVariant) : QueryScoped (query_all e st p args).2.2 := by
  simp only [query_all]
  repeat' split
  all_goals first
    | exact queryScoped_nil
    | exact queryScoped_parse _
    | exact queryScoped_full _

theorem query_one_scoped (e : Engine) (st : PState) (p : String)
    (args : List GVariant) : QueryScoped (query_one e st p args).2.2 := by
  simp only [query_one]
  repeat' split
  all_goals first
    | exact queryScoped_nil
    | exact queryScoped_parse _
    | exact queryScoped_full _

theorem add_fact_scoped (e : Engine) (st : PState) (fact : String) :
    QueryScoped (add_fact e st fact).2.2 := by
  simp only [add_fact]
  repeat' split
  all_goals first
    | exact queryScoped_nil
    | exact queryScoped_parse _
    | exact queryScoped_full _

theorem retract_fact_scoped (e : Engine) (st : PState) (fact : String) :
    QueryScoped (retract_fact e st fact).2.2 := by
  simp only [retract_fact]
  repeat' split
  all_goals first
    | exact queryScoped_nil
    | exact queryScoped_parse _
    | exact queryScoped_full _

theorem retract_all_scoped (e : Engine) (st : PState) (pat : String) :
    QueryScoped (retract_all e st pat).2.2 := by
  simp only [retract_all]
  split
  · exact queryScoped_nil
  · exact query_scoped ..

theorem consult_file_scoped (e : Engine) (st : PState) (fn : String) :
    QueryScoped (consult_file e st fn).2.2 := by
  simp only [consult_file]
  repeat' split
  all_goals first
    | exact queryScoped_nil
    | exact queryScoped_noparse

theorem consult_string_scoped (e : Engine) (st : PState) (code : String) :
    QueryScoped (consult_string e st code).2.2 := by
  simp only [consult_string]
  repeat' split
  all_goals first
    | exact queryScoped_nil
    | exact queryScoped_noparse

theorem call_predicate_scoped (e : Engine) (st : PState) (p : String)
    (args : List GVariant) : QueryScoped (call_predicate e st p args).2.2 := by
  simp only [call_predicate]
  repeat' split
  all_goals first
    | exact queryScoped_nil
    | exact queryScoped_noparse

theorem call_function_scoped (e : Engine) (st : PState) (p : String)
    (args : List GVariant) : QueryScoped (call_function e st p args).2.2 := by
  simp only [call_function]
  repeat' split
  all_goals first
    | exact queryScoped_nil
    | exact queryScoped_noparse

/-- C4: for every query execution by a public operation, the opened
engine query is closed exactly once before the operation returns, on
every code path - solution found, no solution, and engine exception. -/
theorem query_closed_once (e : Engine) (st : PState) (p fact pat fn code : String)
    (args : List GVariant) :
    QueryScoped (query e st p args).2.2 ∧
    QueryScoped (query_all e st p args).2.2 ∧
    QueryScoped (query_one e st p args).2.2 ∧
    QueryScoped (add_fact e st fact).2.2 ∧
    QueryScoped (retract_fact e st fact).2.2 ∧
    QueryScoped (retract_all e st pat).2.2 ∧
    QueryScoped (consult_file e st fn).2.2 ∧
    QueryScoped (consult_string e st code).2.2 ∧
    QueryScoped (call_predicate e st p args).2.2 ∧
    QueryScoped (call_function e st p args).2.2 :=
  ⟨query_scoped .., query_all_scoped .., query_one_scoped .., add_fact_scoped ..,
   retract_fact_scoped .., retract_all_scoped .., consult_file_scoped ..,
   consult_string_scoped .., call_predicate_scoped .., call_function_scoped ..⟩

/-- C5: every public operation invoked before a successful engine
startup returns its neutral failure value (false, empty list, or Null)
immediately: the state is untouched and no engine action is taken, so in
particular no exception can cross the public boundary. -/
theorem not_initialized_neutral (e : Engine) (st : PState)
    (p fact fn code : String) (args : List GVariant) (arity : Nat)
    (h : st.initialized = false) :
    query e st p args = (false, st, []) ∧
    query_all e st p args = ([], st, []) ∧
    query_one e st p args = (.nil, st, []) ∧
    add_fact e st fact = (false, st, []) ∧
    retract_fact e st fact = (false, st, []) ∧
    retract_all e st fact = (false, st, []) ∧
    consult_file e st fn = (false, st, []) ∧
    consult_string e st code = (false, st, []) ∧
    call_predicate e st p args = (false, st, []) ∧
    call_function e st p args = (.nil, st, []) ∧
    predicate_exists e st p arity = (false, st, []) ∧
    list_predicates e st = ([], st, []) := by
  simp [query, query_all, query_one, add_fact, retract_fact, retract_all,
    consult_file, consult_string, call_predicate, call_function,
    predicate_exists, list_predicates, h]

/-- C5 witness: the not-yet-started state at concrete inputs. -/
theorem not_initialized_neutral_witness :
    query eReject stDown "p" [] = (false, stDown, []) ∧
    query_all eReject stDown "p" [] = ([], stDown, []) ∧
    query_one eReject stDown "p" [] = (.nil, stDown, []) ∧
    add_fact eReject stDown "f" = (false, stDown, []) ∧
    retract_fact eReject stDown "f" = (false, stDown, []) ∧
    retract_all eReject stDown "f" = (false, stDown, []) ∧
    consult_file eReject stDown "fn" = (false, stDown, []) ∧
    consult_string eReject stDown "c" = (false, stDown, []) ∧
    call_predicate eReject stDown "p" [] = (false, stDown, []) ∧
    call_function eReject stDown "p" [] = (.nil, stDown, []) ∧
    predicate_exists eReject stDown "p" 0 = (false, stDown, []) ∧
    list_predicates eReject stDown = ([], stDown, []) :=
  not_initialized_neutral eReject stDown "p" "f" "fn" "c" [] 0 rfl

/-- Strings that do not end in a period are left alone by the stripper. -/
theorem strip_no_period (s : String) (h : s.data.getLast? ≠ some '.') :
    stripTrailingPeriod s = s := by
  unfold stripTrailingPeriod
  rw [if_neg h]

/-- A wrapped retractall goal ends in a closing parenthesis. -/
theorem retractall_wrap_last (f : String) :
    ("retractall(" ++ f ++ ")").data.getLast? = some ')' := by
  show (("retractall(" ++ f).data ++ [')']).getLast? = some ')'
  exact List.getLast?_concat _

/-- A wrapped retractall goal is never blank. -/
theorem retractall_wrap_ne (f : String) : ("retractall(" ++ f ++ ")") ≠ "" := by
  intro h0
  have h1 : (("retractall(" ++ f).data ++ [')']) = ([] : List Char) :=
    congrArg String.data h0
  simp at h1

/-- C6: when the engine is up and the wrapping retractall goal parses
and runs without exception (by Prolog semantics retractall/1 always
succeeds, even with zero matching clauses), retract_all returns true. -/
theorem retract_all_reports_true (e : Engine) (st : PState) (pat : String)
    (t bound : PTerm)
    (hinit : st.initialized = true)
    (hparse : e.parse ("retractall(" ++ stripTrailingPeriod pat ++ ")") = some t)
    (hrun : e.runCall t = .solved bound) :
    (retract_all e st pat).1 = true := by
  have hstrip : stripTrailingPeriod
      ("retractall(" ++ stripTrailingPeriod pat ++ ")") =
      ("retractall(" ++ stripTrailingPeriod pat ++ ")") := by
    apply strip_no_period
    rw [retractall_wrap_last]
    simp
  have hne := retractall_wrap_ne (stripTrailingPeriod pat)
  simp [retract_all, query, build_query, hinit, hstrip, hne, hparse, hrun]

/-- C6 witness: a concrete pattern with zero asserted clauses still
reports success. -/
theorem retract_all_reports_true_witness :
    (retract_all eAtom stReady "likes(_,_)").1 = true :=
  retract_all_reports_true eAtom stReady "likes(_,_)" _ _ rfl rfl rfl

/-- Appending one period is undone exactly by the stripper. -/
theorem strip_append_period (s : String) : stripTrailingPeriod (s ++ ".") = s := by
  unfold stripTrailingPeriod
  have hdata : (s ++ ".").data = s.data ++ ['.'] := rfl
  rw [hdata, List.getLast?_concat, if_pos rfl, List.dropLast_concat]

/-- C7: exactly one trailing period is stripped before parsing - so
add_fact "foo(1)." and add_fact "foo(1)" behave identically - while a
second period survives the normalization and, with a parser that rejects
period-terminated text, surfaces as a recorded parse failure instead of
being silently accepted. -/
theorem trailing_period (s : String) (e : Engine) (st : PState)
    (hinit : st.initialized = true)
    (hparse : e.parse "foo(1)." = none) :
    stripTrailingPeriod (s ++ ".") = s ∧
    stripTrailingPeriod "foo(1).." = "foo(1)." ∧
    "foo(1)." ≠ "foo(1)" ∧
    add_fact e st "foo(1)." = add_fact e st "foo(1)" ∧
    add_fact e st "foo(1).." =
      (false, { st with lastError := "Failed to parse fact: foo(1)." },
       [.parseEv "foo(1)."]) := by
  refine ⟨strip_append_period s, by decide, by decide, ?_, ?_⟩
  · have h1 : stripTrailingPeriod "foo(1)." = "foo(1)" := by decide
    have h2 : stripTrailingPeriod "foo(1)" = "foo(1)" := by decide
    simp [add_fact, hinit, h1, h2]
  · have h3 : stripTrailingPeriod "foo(1).." = "foo(1)." := by decide
    simp [add_fact, hinit, h3, hparse]

/-- C7 witness: the concrete normalization and parse-failure facts. -/
theorem trailing_period_witness :
    stripTrailingPeriod ("x" ++ ".") = "x" ∧
    stripTrailingPeriod "foo(1).." = "foo(1)." ∧
    "foo(1)." ≠ "foo(1)" ∧
    add_fact eReject stReady "foo(1)." = add_fact eReject stReady "foo(1)" ∧
    add_fact eReject stReady "foo(1).." =
      (false, { stReady with lastError := "Failed to parse fact: foo(1)." },
       [.parseEv "foo(1)."]) :=
  trailing_period "x" eReject stReady rfl rfl

/-- C8 counterexample: blank inputs that are not rejected before engine
interaction.  retract_all wraps a blank pattern into "retractall()" and
hands that text to PL_chars_to_term, recording a parse failure instead
of a blank-input rejection; and query, query_all and query_one given a
blank predicate with a non-empty args list build the goal "(X)", which
passes the emptiness check and likewise reaches the engine parser
(wrapped in findall for query_all). -/
theorem empty_input_refuted :
    (retract_all eReject stReady "").2.2 = [.parseEv "retractall()"] ∧
    get_last_error (retract_all eReject stReady "").2.1 =
      "Failed to parse query: retractall()" ∧
    (retract_all eReject stReady "").1 = false ∧
    (query eReject stReady "" [.str "X"]).2.2 = [.parseEv "(X)"] ∧
    get_last_error (query eReject stReady "" [.str "X"]).2.1 =
      "Failed to parse query: (X)" ∧
    (query_all eReject stReady "" [.str "X"]).2.2 =
      [.parseEv "findall((X), (X), PrologotResults__)"] ∧
    (query_one eReject stReady "" [.str "X"]).2.2 = [.parseEv "(X)"] :=
  ⟨rfl, rfl, rfl, rfl, rfl, rfl, rfl⟩

/-- A string ending in a closing parenthesis is never blank. -/
theorem append_paren_ne (a : String) : (a ++ ")") ≠ "" := by
  intro h0
  have h1 : (a.data ++ [')']) = ([] : List Char) := congrArg String.data h0
  simp at h1

/-- C8 (amended): every public operation taking a predicate, fact,
goal-or-code or filename string except retract_all rejects a blank input
before any engine interaction, recording an error and returning its
neutral value with an empty event trace, where for the query family the
blank-rejection case is the one with an empty argument list; the two
exceptions shown by the counterexample pass the blank through instead:
retract_all embeds the blank pattern in a retractall goal that reaches
the engine parser, and query/query_all/query_one given a blank predicate
with a non-empty args list build the goal "(args...)", which is never
blank and so also proceeds to the engine parser. -/
theorem empty_input_amended (e : Engine) (st : PState)
    (args : List GVariant) (a : GVariant) (args2 : List GVariant)
    (h : st.initialized = true) :
    consult_file e st "" = (false, { st with lastError := "Empty filename" }, []) ∧
    consult_string e st "" =
      (false, { st with lastError := "Empty Prolog code" }, []) ∧
    add_fact e st "" = (false, { st with lastError := "Empty fact" }, []) ∧
    retract_fact e st "" = (false, { st with lastError := "Empty fact" }, []) ∧
    query e st "" [] = (false, { st with lastError := "Empty query" }, []) ∧
    query_all e st "" [] = ([], { st with lastError := "Empty query" }, []) ∧
    query_one e st "" [] = (.nil, { st with lastError := "Empty query" }, []) ∧
    call_predicate e st "" args =
      (false, { st with lastError := "Empty predicate name" }, []) ∧
    call_function e st "" args =
      (.nil, { st with lastError := "Empty predicate name" }, []) ∧
    retract_all e st "" = query e st "retractall()" [] ∧
    build_query "" (a :: args2) ≠ "" := by
  have hq : build_query "" ([] : List GVariant) = "" := by decide
  have hr : ("retractall(" ++ stripTrailingPeriod "" ++ ")") = "retractall()" := by
    decide
  have hforward : build_query "" (a :: args2) ≠ "" := by
    simp only [build_query, List.isEmpty_cons, Bool.false_eq_true, if_false]
    exact append_paren_ne _
  refine ⟨?_, ?_, ?_, ?_, ?_, ?_, ?_, ?_, ?_, ?_, hforward⟩ <;>
    simp [consult_file, consult_string, add_fact, retract_fact, query, query_all,
      query_one, call_predicate, call_function, retract_all, h, hq, hr]

/-- C8 amended witness: the blank-input rejections at a concrete state. -/
theorem empty_input_amended_witness :
    consult_file eReject stReady "" =
      (false, { stReady with lastError := "Empty filename" }, []) ∧
    consult_string eReject stReady "" =
      (false, { stReady with lastError := "Empty Prolog code" }, []) ∧
    add_fact eReject stReady "" =
      (false, { stReady with lastError := "Empty fact" }, []) ∧
    retract_fact eReject stReady "" =
      (false, { stReady with lastError := "Empty fact" }, []) ∧
    query eReject stReady "" [] =
      (false, { stReady with lastError := "Empty query" }, []) ∧
    query_all eReject stReady "" [] =
      ([], { stReady with lastError := "Empty query" }, []) ∧
    query_one eReject stReady "" [] =
      (.nil, { stReady with lastError := "Empty query" }, []) ∧
    call_predicate eReject stReady "" [] =
      (false, { stReady with lastError := "Empty predicate name" }, []) ∧
    call_function eReject stReady "" [] =
      (.nil, { stReady with lastError := "Empty predicate name" }, []) ∧
    retract_all eReject stReady "" = query eReject stReady "retractall()" [] ∧
    build_query "" (GVariant.str "X" :: []) ≠ "" :=
  empty_input_amended eReject stReady [] (.str "X") [] rfl

/-- C9: a second startup while already initialized is a pure no-op
success; cleanup when not initialized does nothing and cannot fail; and
after cleanup the initialized flag reads false from either state. -/
theorem lifecycle_idempotent (e : Engine) (st stD : PState)
    (opts : List (String × GVariant))
    (h1 : st.initialized = true) (h2 : stD.initialized = false) :
    startup e st opts = (true, st, []) ∧
    cleanup stD = (stD, []) ∧
    is_initialized (cleanup st).1 = false ∧
    is_initialized (cleanup stD).1 = false := by
  simp [startup, cleanup, is_initialized, h1, h2]

/-- C9 witness: the concrete idempotent lifecycle. -/
theorem lifecycle_idempotent_witness :
    startup eAtom stReady [] = (true, stReady, []) ∧
    cleanup stDown = (stDown, []) ∧
    is_initialized (cleanup stReady).1 = false ∧
    is_initialized (cleanup stDown).1 = false :=
  lifecycle_idempotent eAtom stReady stDown [] rfl rfl

theorem query_true_keeps_state (e : Engine) (st : PState) (p : String)
    (args : List GVariant) :
    (query e st p args).1 = true → (query e st p args).2.1 = st := by
  intro h
  simp only [query] at h ⊢
  repeat' split at h
  all_goals simp_all

theorem add_fact_true_keeps_state (e : Engine) (st : PState) (fact : String) :
    (add_fact e st fact).1 = true → (add_fact e st fact).2.1 = st := by
  intro h
  simp only [add_fact] at h ⊢
  repeat' split at h
  all_goals simp_all

theorem retract_fact_true_keeps_state (e : Engine) (st : PState) (fact : String) :
    (retract_fact e st fact).1 = true → (retract_fact e st fact).2.1 = st := by
  intro h
  simp only [retract_fact] at h ⊢
  repeat' split at h
  all_goals simp_all

theorem consult_file_true_keeps_state (e : Engine) (st : PState) (fn : String) :
    (consult_file e st fn).1 = true → (consult_file e st fn).2.1 = st := by
  intro h
  simp only [consult_file] at h ⊢
  repeat' split at h
  all_goals simp_all

theorem consult_string_true_keeps_state (e : Engine) (st : PState) (code : String) :
    (consult_string e st code).1 = true → (consult_string e st code).2.1 = st := by
  intro h
  simp only [consult_string] at h ⊢
  repeat' split at h
  all_goals simp_all

theorem call_predicate_true_keeps_state (e : Engine) (st : PState) (p : String)
    (args : List GVariant) :
    (call_predicate e st p args).1 = true → (call_predicate e st p args).2.1 = st := by
  intro h
  simp only [call_predicate] at h ⊢
  repeat' split at h
  all_goals simp_all

theorem query_all_nonempty_keeps_state (e : Engine) (st : PState) (p : String)
    (args : List GVariant) :
    (query_all e st p args).1 ≠ [] → (query_all e st p args).2.1 = st := by
  intro h
  simp only [query_all] at h ⊢
  repeat' split at h
  all_goals simp_all

theorem query_one_value_keeps_state (e : Engine) (st : PState) (p : String)
    (args : List GVariant) :
    (query_one e st p args).1 ≠ .nil → (query_one e st p args).2.1 = st := by
  intro h
  simp only [query_one] at h ⊢
  repeat' split at h
  all_goals simp_all

theorem call_function_value_keeps_state (e : Engine) (st : PState) (p : String)
    (args : List GVariant) :
    (call_function e st p args).1 ≠ .nil → (call_function e st p args).2.1 = st := by
  intro h
  simp only [call_function] at h ⊢
  repeat' split at h
  all_goals simp_all

/-- C10: the last-error slot is written only when an error occurs and is
never cleared by success: every operation that reports success leaves
the stored error text (indeed the whole state) unchanged, so an earlier
recorded error is still returned by get_last_error afterwards. -/
theorem error_slot_preserved (e : Engine) (st : PState)
    (p fact fact2 fn code cp : String) (args cargs : List GVariant)
    (h1 : (query e st p args).1 = true)
    (h2 : (add_fact e st fact).1 = true)
    (h3 : (retract_fact e st fact2).1 = true)
    (h4 : (consult_file e st fn).1 = true)
    (h5 : (consult_string e st code).1 = true)
    (h6 : (call_predicate e st cp cargs).1 = true)
    (h7 : (query_all e st p args).1 ≠ [])
    (h8 : (query_one e st p args).1 ≠ .nil)
    (h9 : (call_function e st cp cargs).1 ≠ .nil) :
    get_last_error (query e st p args).2.1 = get_last_error st ∧
    get_last_error (add_fact e st fact).2.1 = get_last_error st ∧
    get_last_error (retract_fact e st fact2).2.1 = get_last_error st ∧
    get_last_error (consult_file e st fn).2.1 = get_last_error st ∧
    get_last_error (consult_string e st code).2.1 = get_last_error st ∧
    get_last_error (call_predicate e st cp cargs).2.1 = get_last_error st ∧
    get_last_error (query_all e st p args).2.1 = get_last_error st ∧
    get_last_error (query_one e st p args).2.1 = get_last_error st ∧
    get_last_error (call_function e st cp cargs).2.1 = get_last_error st := by
  rw [query_true_keeps_state e st p args h1,
    add_fact_true_keeps_state e st fact h2,
    retract_fact_true_keeps_state e st fact2 h3,
    consult_file_true_keeps_state e st fn h4,
    consult_string_true_keeps_state e st code h5,
    call_predicate_true_keeps_state e st cp cargs h6,
    query_all_nonempty_keeps_state e st p args h7,
    query_one_value_keeps_state e st p args h8,
    call_function_value_keeps_state e st cp cargs h9]
  exact ⟨rfl, rfl, rfl, rfl, rfl, rfl, rfl, rfl, rfl⟩

/-- A test engine where every operation finds a solution and findall
materialises the one-element list [tom]. -/
def eFind : Engine :=
  { parse := fun s => some (.atom s),
    runCall := fun _ => .solved
      (.compound "findall" [.atom "t", .atom "g", .cons (.atom "tom") .nil]),
    runPred := fun _ t => .solved t, findPred := fun _ _ => true,
    globalize := id, initOk := true, initException := none,
    bootstrapError := none }

/-- C10 witness: after the state has recorded "boot error", successful
operations all leave get_last_error at "boot error". -/
theorem error_slot_preserved_witness :
    get_last_error (query eFind stReady "parent" []).2.1 = get_last_error stReady ∧
    get_last_error (add_fact eFind stReady "likes(a,b)").2.1 =
      get_last_error stReady ∧
    get_last_error (retract_fact eFind stReady "likes(a,b)").2.1 =
      get_last_error stReady ∧
    get_last_error (consult_file eFind stReady "kb.pl").2.1 =
      get_last_error stReady ∧
    get_last_error (consult_string eFind stReady "p(1).").2.1 =
      get_last_error stReady ∧
    get_last_error (call_predicate eFind stReady "foo" []).2.1 =
      get_last_error stReady ∧
    get_last_error (query_all eFind stReady "parent" []).2.1 =
      get_last_error stReady ∧
    get_last_error (query_one eFind stReady "parent" []).2.1 =
      get_last_error stReady ∧
    get_last_error (call_function eFind stReady "foo" []).2.1 =
      get_last_error stReady :=
  error_slot_preserved eFind stReady "parent" "likes(a,b)" "likes(a,b)" "kb.pl"
    "p(1)." "foo" [] [] rfl rfl rfl rfl rfl rfl
    (fun hh => nomatch hh) (fun hh => nomatch hh) (fun hh => nomatch hh)

end Prologot
